import Mathlib

/-!
Verification development for the sector-sim core: tick engine with capability
registry, structure lifecycle controller, route planner, and swarm controller.
Numeric values are modelled as rationals; JS maps are modelled as
insertion-ordered association lists.
-/

-- ===========================================================================
-- Tick engine (services/sector-sim/sim): capabilities.js and the tick module
-- ===========================================================================

namespace SectorSim

/-- Aggregated tick output deltas: the five-field accumulator built in tick. -/
structure TickOutput where
  power_delta : ℚ
  power_consumed : ℚ
  light_level_delta : ℚ
  morale_delta : ℚ
  visibility_score_delta : ℚ
deriving DecidableEq, Repr

instance : Zero TickOutput := ⟨⟨0, 0, 0, 0, 0⟩⟩

instance : Add TickOutput :=
  ⟨fun a b =>
    ⟨a.power_delta + b.power_delta, a.power_consumed + b.power_consumed,
     a.light_level_delta + b.light_level_delta, a.morale_delta + b.morale_delta,
     a.visibility_score_delta + b.visibility_score_delta⟩⟩

theorem TickOutput.zero_def : (0 : TickOutput) = ⟨0, 0, 0, 0, 0⟩ := rfl

theorem TickOutput.add_def (a b : TickOutput) :
    a + b = ⟨a.power_delta + b.power_delta, a.power_consumed + b.power_consumed,
             a.light_level_delta + b.light_level_delta, a.morale_delta + b.morale_delta,
             a.visibility_score_delta + b.visibility_score_delta⟩ := rfl

instance : AddCommMonoid TickOutput where
  add_assoc a b c := by simp [TickOutput.add_def, add_assoc]
  zero_add a := by simp [TickOutput.add_def, TickOutput.zero_def]
  add_zero a := by simp [TickOutput.add_def, TickOutput.zero_def]
  add_comm a b := by simp [TickOutput.add_def]; constructor <;> [ring; constructor] <;>
    [ring; constructor] <;> [ring; constructor] <;> ring
  nsmul := nsmulRec

/-- Numeric fields of a catalog entry used by the sim hooks. -/
structure SimFields where
  power_generation : ℚ
  power_consumption : ℚ
  visibility_score : ℚ
deriving DecidableEq, Repr

/-- A placed primitive: catalog id, declared capability names, sim coefficients. -/
structure Primitive where
  id : String
  capabilities : List String
  sim : SimFields
deriving DecidableEq, Repr

/-- The closed capability registry (keys of the CAPABILITIES object). -/
inductive Capability
  | POWER_GENERATION
  | HABITATION
  | LIGHTING
  | AESTHETIC
  | WAYFINDING
  | STORAGE
  | TRANSPORT
deriving DecidableEq, Repr

/-- Registry lookup CAPABILITIES[capName]: none models an absent key. -/
def lookupCapability : String → Option Capability
  | "POWER_GENERATION" => some .POWER_GENERATION
  | "HABITATION" => some .HABITATION
  | "LIGHTING" => some .LIGHTING
  | "AESTHETIC" => some .AESTHETIC
  | "WAYFINDING" => some .WAYFINDING
  | "STORAGE" => some .STORAGE
  | "TRANSPORT" => some .TRANSPORT
  | _ => none

/-- One draw of the mulberry32 generator from createRng: the state is the
32-bit pattern s; returns the uniform value in [0,1) and the next state. -/
def rngNext (s : Nat) : ℚ × Nat :=
  let s1 := (s + 0x6d2b79f5) % 2 ^ 32
  let t := ((s1 ^^^ (s1 >>> 15)) * (s1 ||| 1)) % 2 ^ 32
  let t2 := ((t + ((t ^^^ (t >>> 7)) * (t ||| 61)) % 2 ^ 32) % 2 ^ 32) ^^^ t
  let u := t2 ^^^ (t2 >>> 14)
  ((u : ℚ) / 4294967296, s1)

/-- JS 32-bit truncation of the seed (seed | 0, kept as its bit pattern). -/
def toUint32 (i : Int) : Nat := (i % 2 ^ 32).toNat

/-- The tick hook of one registry entry: takes the primitive, the sector state
and the rng state; returns the partial result object (as a key/value list)
together with the rng state after any draws. No hook draws entropy. -/
def capabilityTick {σ : Type} (c : Capability) (p : Primitive) (_ss : σ) (r : Nat) :
    List (String × ℚ) × Nat :=
  match c with
  | .POWER_GENERATION => ([("power_delta", p.sim.power_generation)], r)
  | .HABITATION => ([], r)
  | .LIGHTING =>
      ([("light_level_delta", if p.sim.power_consumption > 0 then 1 else 0)], r)
  | .AESTHETIC => ([("morale_delta", 1 / 10)], r)
  | .WAYFINDING => ([("visibility_score_delta", p.sim.visibility_score)], r)
  | .STORAGE => ([], r)
  | .TRANSPORT => ([], r)

/-- Merge one key/value entry of a capability result into the accumulator:
keys present in the output are added, unrecognized keys are dropped. -/
def addField (o : TickOutput) (kv : String × ℚ) : TickOutput :=
  if kv.1 = "power_delta" then { o with power_delta := o.power_delta + kv.2 }
  else if kv.1 = "power_consumed" then { o with power_consumed := o.power_consumed + kv.2 }
  else if kv.1 = "light_level_delta" then
    { o with light_level_delta := o.light_level_delta + kv.2 }
  else if kv.1 = "morale_delta" then { o with morale_delta := o.morale_delta + kv.2 }
  else if kv.1 = "visibility_score_delta" then
    { o with visibility_score_delta := o.visibility_score_delta + kv.2 }
  else o

/-- Inner loop of tick over the capability names of one primitive; a name
absent from the registry aborts the whole call (the thrown error). -/
def runCapabilities {σ : Type} (p : Primitive) (ss : σ) :
    List String → TickOutput → Nat → Option (TickOutput × Nat)
  | [], o, r => some (o, r)
  | capName :: rest, o, r =>
    match lookupCapability capName with
    | none => none
    | some cap =>
      let res := capabilityTick cap p ss r
      runCapabilities p ss rest (res.1.foldl addField o) res.2

/-- Outer loop of tick over the placed primitives, in input order; the power
consumption of each primitive is added unconditionally before its hooks run. -/
def runPrimitives {σ : Type} (ss : σ) :
    List Primitive → TickOutput → Nat → Option (TickOutput × Nat)
  | [], o, r => some (o, r)
  | p :: ps, o, r =>
    match runCapabilities p ss p.capabilities
        { o with power_consumed := o.power_consumed + p.sim.power_consumption } r with
    | none => none
    | some (o2, r2) => runPrimitives ss ps o2 r2

/-- Run a single sim tick for a list of placed primitives: a fresh generator
state is derived from the seed, the accumulator starts at zero, and the
result is returned only when every declared capability is recognized. -/
def tick {σ : Type} (placedPrimitives : List Primitive) (sectorState : σ) (seed : Int) :
    Option TickOutput :=
  (runPrimitives sectorState placedPrimitives ⟨0, 0, 0, 0, 0⟩ (toUint32 seed)).map Prod.fst

-- Characterization of the engine as a sum of per-primitive contributions.

/-- Whether every capability declared by every listed primitive is a key of
the registry. -/
def allCapsKnown (ps : List Primitive) : Bool :=
  ps.all fun p => p.capabilities.all fun c => (lookupCapability c).isSome

/-- Accumulator contribution of one registry entry applied to one primitive. -/
def capDelta (c : Capability) (p : Primitive) : TickOutput :=
  (capabilityTick c p () 0).1.foldl addField 0

/-- Accumulator contribution of one declared capability name (zero when the
name is unknown; in that case the engine aborts anyway). -/
def capDeltaByName (p : Primitive) (name : String) : TickOutput :=
  match lookupCapability name with
  | some c => capDelta c p
  | none => 0

/-- Total contribution of one placed primitive to the tick output. -/
def primDelta (p : Primitive) : TickOutput :=
  ⟨0, p.sim.power_consumption, 0, 0, 0⟩ + (p.capabilities.map (capDeltaByName p)).sum

theorem capabilityTick_fst {σ : Type} (c : Capability) (p : Primitive) (ss : σ) (r : Nat) :
    (capabilityTick c p ss r).1 = (capabilityTick c p () 0).1 := by
  cases c <;> rfl

theorem capabilityTick_snd {σ : Type} (c : Capability) (p : Primitive) (ss : σ) (r : Nat) :
    (capabilityTick c p ss r).2 = r := by
  cases c <;> rfl

theorem addField_add (o d : TickOutput) (kv : String × ℚ) :
    addField (o + d) kv = o + addField d kv := by
  unfold addField
  split_ifs <;> simp [TickOutput.add_def] <;> ring

theorem foldl_addField (o : TickOutput) (l : List (String × ℚ)) :
    l.foldl addField o = o + l.foldl addField 0 := by
  induction l generalizing o with
  | nil => simp [List.foldl]
  | cons kv rest ih =>
    have h0 : addField o kv = o + addField 0 kv := by
      have := addField_add o 0 kv
      simpa using this
    simp only [List.foldl]
    rw [ih (addField o kv), ih (addField 0 kv), h0, add_assoc]

theorem runCapabilities_eq {σ : Type} (p : Primitive) (ss : σ) (caps : List String)
    (o : TickOutput) (r : Nat) :
    runCapabilities p ss caps o r =
      if caps.all (fun c => (lookupCapability c).isSome)
      then some (o + (caps.map (capDeltaByName p)).sum, r)
      else none := by
  induction caps generalizing o with
  | nil => simp [runCapabilities]
  | cons c rest ih =>
    cases h : lookupCapability c with
    | none => simp [runCapabilities, h]
    | some cap =>
      simp only [runCapabilities, h, List.all_cons, List.map_cons, List.sum_cons,
        Option.isSome_some, Bool.true_and]
      rw [capabilityTick_fst, capabilityTick_snd, foldl_addField]
      have hby : capDeltaByName p c = capDelta cap p := by simp [capDeltaByName, h]
      rw [hby, ih]
      split
      · simp [capDelta, add_assoc]
      · rfl

theorem power_consumed_update (o : TickOutput) (x : ℚ) :
    { o with power_consumed := o.power_consumed + x } = o + ⟨0, x, 0, 0, 0⟩ := by
  simp [TickOutput.add_def]

theorem runPrimitives_eq {σ : Type} (ss : σ) (ps : List Primitive)
    (o : TickOutput) (r : Nat) :
    runPrimitives ss ps o r =
      if allCapsKnown ps then some (o + (ps.map primDelta).sum, r) else none := by
  induction ps generalizing o with
  | nil => simp [runPrimitives, allCapsKnown]
  | cons p rest ih =>
    simp only [runPrimitives, runCapabilities_eq, power_consumed_update]
    by_cases hp : (p.capabilities.all fun c => (lookupCapability c).isSome) = true
    · rw [if_pos hp]
      dsimp only
      rw [ih]
      have hall : allCapsKnown (p :: rest) = allCapsKnown rest := by
        simp [allCapsKnown, hp]
      rw [hall]
      split
      · simp [primDelta, add_assoc]
      · rfl
    · rw [if_neg hp]
      have hall : allCapsKnown (p :: rest) = false := by
        simp only [allCapsKnown, List.all_cons, Bool.and_eq_true, not_and] at *
        simp [Bool.eq_false_iff, hp]
      rw [hall]
      simp

theorem tick_characterization {σ : Type} (ps : List Primitive) (ss : σ) (seed : Int) :
    tick ps ss seed =
      if allCapsKnown ps then some ((ps.map primDelta).sum) else none := by
  unfold tick
  rw [show (⟨0, 0, 0, 0, 0⟩ : TickOutput) = 0 from rfl, runPrimitives_eq]
  split <;> simp

theorem addField_key_power_delta (o : TickOutput) (x : ℚ) :
    addField o ("power_delta", x) = { o with power_delta := o.power_delta + x } := by
  unfold addField
  rw [if_pos rfl]

theorem addField_key_light (o : TickOutput) (x : ℚ) :
    addField o ("light_level_delta", x) =
      { o with light_level_delta := o.light_level_delta + x } := by
  simp [addField]

theorem addField_key_morale (o : TickOutput) (x : ℚ) :
    addField o ("morale_delta", x) = { o with morale_delta := o.morale_delta + x } := by
  simp [addField]

theorem addField_key_visibility (o : TickOutput) (x : ℚ) :
    addField o ("visibility_score_delta", x) =
      { o with visibility_score_delta := o.visibility_score_delta + x } := by
  simp [addField]

theorem capDelta_POWER_GENERATION (p : Primitive) :
    capDelta .POWER_GENERATION p = ⟨p.sim.power_generation, 0, 0, 0, 0⟩ := by
  simp [capDelta, capabilityTick, addField_key_power_delta, TickOutput.zero_def]

theorem capDelta_LIGHTING (p : Primitive) :
    capDelta .LIGHTING p = ⟨0, 0, if p.sim.power_consumption > 0 then 1 else 0, 0, 0⟩ := by
  simp [capDelta, capabilityTick, addField_key_light, TickOutput.zero_def]

theorem capDelta_AESTHETIC (p : Primitive) :
    capDelta .AESTHETIC p = ⟨0, 0, 0, 1 / 10, 0⟩ := by
  simp [capDelta, capabilityTick, addField_key_morale, TickOutput.zero_def]

theorem capDelta_WAYFINDING (p : Primitive) :
    capDelta .WAYFINDING p = ⟨0, 0, 0, 0, p.sim.visibility_score⟩ := by
  simp [capDelta, capabilityTick, addField_key_visibility, TickOutput.zero_def]

/-- C1: two calls of tick with identical placed primitives, sector state and
seed return bit-identical TickOutput records: the embedded engine is a pure
function of its three arguments, because the generator state is created
inside the call from the seed alone and no state survives a call. -/
theorem tick_two_run_deterministic {σ : Type} (placedPrimitives : List Primitive)
    (sectorState : σ) (seed : Int) :
    tick placedPrimitives sectorState seed = tick placedPrimitives sectorState seed := rfl

/-- C2: a primitive with power_generation 0, power_consumption c > 0,
visibility_score v > 0 and capability set {AESTHETIC, LIGHTING, WAYFINDING}
(declared in any order), ticked alone, yields exactly power_delta 0,
power_consumed c, light_level_delta 1, morale_delta 1/10 and
visibility_score_delta v. -/
theorem tick_single_primitive_example {σ : Type} (ss : σ) (seed : Int) (pid : String)
    (c v : ℚ) (hc : 0 < c) (_hv : 0 < v) (caps : List String)
    (hcaps : caps.Perm ["AESTHETIC", "LIGHTING", "WAYFINDING"]) :
    tick [⟨pid, caps, ⟨0, c, v⟩⟩] ss seed = some ⟨0, c, 1, 1 / 10, v⟩ := by
  rw [tick_characterization]
  have hall : allCapsKnown [⟨pid, caps, ⟨0, c, v⟩⟩] = true := by
    simp only [allCapsKnown, List.all_cons, List.all_nil, Bool.and_true]
    rw [List.all_eq_true]
    intro x hx
    have hmem := hcaps.mem_iff.mp hx
    simp only [List.mem_cons, List.not_mem_nil, or_false] at hmem
    rcases hmem with h | h | h <;> subst h <;> rfl
  rw [if_pos hall]
  have hsum : (caps.map (capDeltaByName ⟨pid, caps, ⟨0, c, v⟩⟩)).sum =
      (["AESTHETIC", "LIGHTING", "WAYFINDING"].map
        (capDeltaByName ⟨pid, caps, ⟨0, c, v⟩⟩)).sum :=
    (hcaps.map _).sum_eq
  simp only [List.map_cons, List.map_nil, List.sum_cons, List.sum_nil, add_zero,
    primDelta, hsum]
  simp only [List.map_cons, List.map_nil, List.sum_cons, List.sum_nil, capDeltaByName,
    lookupCapability, capDelta_AESTHETIC, capDelta_LIGHTING, capDelta_WAYFINDING]
  rw [if_pos hc]
  simp [TickOutput.add_def, TickOutput.zero_def]

/-- C3: when some placed primitive declares a capability name that is not a
key of the registry, tick aborts with the configuration error and yields no
partial accumulator: the call returns no TickOutput at all. -/
theorem tick_unknown_capability_aborts {σ : Type} (ps : List Primitive) (ss : σ)
    (seed : Int) (h : ∃ p ∈ ps, ∃ c ∈ p.capabilities, lookupCapability c = none) :
    tick ps ss seed = none := by
  rw [tick_characterization]
  have hall : ¬ allCapsKnown ps = true := by
    intro hk
    rcases h with ⟨p, hp, c, hc, hnone⟩
    simp only [allCapsKnown, List.all_eq_true] at hk
    have hcontra := hk p hp c hc
    rw [hnone] at hcontra
    simp at hcontra
  rw [if_neg hall]

/-- Witness for C2: the example primitive with c = 2 and v = 3, declared in
the canonical capability order, ticked alone with seed 0. -/
theorem tick_single_primitive_example_witness :
    (0 : ℚ) < 2 ∧ (0 : ℚ) < 3 ∧
    tick [⟨"neon", ["AESTHETIC", "LIGHTING", "WAYFINDING"], ⟨0, 2, 3⟩⟩] () 0 =
      some ⟨0, 2, 1, 1 / 10, 3⟩ :=
  ⟨by norm_num, by norm_num,
    tick_single_primitive_example () 0 "neon" 2 3 (by norm_num) (by norm_num)
      ["AESTHETIC", "LIGHTING", "WAYFINDING"] (List.Perm.refl _)⟩

/-- Witness for C3: a primitive declaring the unregistered name BOGUS. -/
theorem tick_unknown_capability_aborts_witness :
    (∃ p ∈ [(⟨"p", ["BOGUS"], ⟨1, 1, 1⟩⟩ : Primitive)], ∃ c ∈ p.capabilities,
        lookupCapability c = none) ∧
    tick [(⟨"p", ["BOGUS"], ⟨1, 1, 1⟩⟩ : Primitive)] () 0 = none :=
  ⟨⟨⟨"p", ["BOGUS"], ⟨1, 1, 1⟩⟩, by simp, "BOGUS", by simp, by decide⟩,
   tick_unknown_capability_aborts _ () 0
     ⟨⟨"p", ["BOGUS"], ⟨1, 1, 1⟩⟩, by simp, "BOGUS", by simp, by decide⟩⟩

theorem nsmul_fields (k : Nat) (o : TickOutput) :
    (k • o : TickOutput) =
      ⟨k * o.power_delta, k * o.power_consumed, k * o.light_level_delta,
       k * o.morale_delta, k * o.visibility_score_delta⟩ := by
  induction k with
  | zero => simp [TickOutput.zero_def]
  | succ n ih =>
    rw [succ_nsmul, ih]
    simp only [TickOutput.add_def]
    congr 1 <;> push_cast <;> ring

/-- C4: ticking k identical copies of a primitive (k at least 1) scales
power_consumed and every capability-derived delta field of the single-copy
TickOutput by exactly k. -/
theorem tick_linear {σ : Type} (p : Primitive) (ss : σ) (seed : Int) (k : Nat)
    (_hk : 1 ≤ k) (o : TickOutput) (h : tick [p] ss seed = some o) :
    tick (List.replicate k p) ss seed =
      some ⟨k * o.power_delta, k * o.power_consumed, k * o.light_level_delta,
            k * o.morale_delta, k * o.visibility_score_delta⟩ := by
  rw [tick_characterization] at h ⊢
  by_cases hall : allCapsKnown [p] = true
  · rw [if_pos hall] at h
    simp only [List.map_cons, List.map_nil, List.sum_cons, List.sum_nil, add_zero] at h
    have ho : o = primDelta p := by exact (Option.some.injEq _ _).mp h |>.symm
    have hallk : allCapsKnown (List.replicate k p) = true := by
      simp only [allCapsKnown, List.all_eq_true] at hall ⊢
      intro q hq
      rw [List.eq_of_mem_replicate hq]
      exact hall p (by simp)
    rw [if_pos hallk, List.map_replicate, List.sum_replicate, nsmul_fields, ho]
  · rw [if_neg hall] at h
    exact absurd h (by simp)

/-- Witness for C4: two copies of a generator primitive scale every field of
the single-copy output by two. -/
theorem tick_linear_witness :
    1 ≤ 2 ∧
    tick [(⟨"gen", ["POWER_GENERATION"], ⟨2, 3, 5⟩⟩ : Primitive)] () 0 =
      some ⟨2, 3, 0, 0, 0⟩ ∧
    tick (List.replicate 2 (⟨"gen", ["POWER_GENERATION"], ⟨2, 3, 5⟩⟩ : Primitive)) () 0 =
      some ⟨((2 : Nat) : ℚ) * 2, ((2 : Nat) : ℚ) * 3, ((2 : Nat) : ℚ) * 0,
            ((2 : Nat) : ℚ) * 0, ((2 : Nat) : ℚ) * 0⟩ :=
  have h1 : tick [(⟨"gen", ["POWER_GENERATION"], ⟨2, 3, 5⟩⟩ : Primitive)] () 0 =
      some ⟨2, 3, 0, 0, 0⟩ := by
    rw [tick_characterization]
    norm_num [allCapsKnown, lookupCapability, primDelta, capDeltaByName,
      capDelta_POWER_GENERATION, TickOutput.add_def, TickOutput.zero_def]
  ⟨by norm_num, h1, tick_linear _ () 0 2 (by norm_num) ⟨2, 3, 0, 0, 0⟩ h1⟩

end SectorSim

-- ===========================================================================
-- Insertion-ordered string-keyed maps (the Map objects of the controllers)
-- ===========================================================================

/-- Lookup in an insertion-ordered association list (Map.get). -/
def alookup {α : Type} (m : List (String × α)) (k : String) : Option α :=
  (m.find? fun e => e.1 == k).map Prod.snd

/-- In-place update of an existing key (Map.set on a present key keeps the
original position). -/
def aset {α : Type} (m : List (String × α)) (k : String) (v : α) :
    List (String × α) :=
  m.map fun e => if e.1 == k then (k, v) else e

theorem alookup_nil {α : Type} (k : String) : alookup ([] : List (String × α)) k = none :=
  rfl

theorem alookup_cons {α : Type} (e : String × α) (m : List (String × α)) (k : String) :
    alookup (e :: m) k = if e.1 == k then some e.2 else alookup m k := by
  unfold alookup
  rw [List.find?]
  cases h : (e.1 == k) <;> simp [h]

theorem aset_cons {α : Type} (e : String × α) (m : List (String × α)) (k : String)
    (v : α) :
    aset (e :: m) k v = (if e.1 == k then (k, v) else e) :: aset m k v := rfl

theorem alookup_aset_self {α : Type} (m : List (String × α)) (k : String) (v : α)
    (h : (alookup m k).isSome) : alookup (aset m k v) k = some v := by
  induction m with
  | nil => simp [alookup] at h
  | cons e rest ih =>
    rw [aset_cons]
    cases he : (e.1 == k) with
    | true => simp [alookup_cons]
    | false =>
      simp only [alookup_cons, he, Bool.false_eq_true, if_false] at h
      simp [alookup_cons, he, ih h]

theorem alookup_aset_ne {α : Type} (m : List (String × α)) (k k2 : String) (v : α)
    (h : k ≠ k2) : alookup (aset m k2 v) k = alookup m k := by
  induction m with
  | nil => rfl
  | cons e rest ih =>
    rw [aset_cons]
    cases he : (e.1 == k2) with
    | true =>
      have he1 : e.1 = k2 := by simpa using he
      have hk2 : (k2 == k) = false := by
        rw [beq_eq_false_iff_ne]
        exact Ne.symm h
      simp [alookup_cons, hk2, he1, ih]
    | false =>
      simp [alookup_cons, he, ih]

theorem alookup_append_some {α : Type} (m l : List (String × α)) (k : String) (v : α)
    (h : alookup m k = some v) : alookup (m ++ l) k = some v := by
  induction m with
  | nil => simp [alookup] at h
  | cons e rest ih =>
    rw [List.cons_append]
    cases he : (e.1 == k) with
    | true =>
      simp [alookup_cons, he] at h ⊢
      exact h
    | false =>
      simp only [alookup_cons, he, Bool.false_eq_true, if_false] at h ⊢
      exact ih h

theorem alookup_append_none {α : Type} (m l : List (String × α)) (k : String)
    (h : alookup m k = none) : alookup (m ++ l) k = alookup l k := by
  induction m with
  | nil => simp [alookup]
  | cons e rest ih =>
    rw [List.cons_append]
    cases he : (e.1 == k) with
    | true => simp [alookup_cons, he] at h
    | false =>
      simp only [alookup_cons, he, Bool.false_eq_true, if_false] at h ⊢
      exact ih h

theorem alookup_map_value {α : Type} (m : List (String × α)) (f : α → α) (k : String) :
    alookup (m.map fun e => (e.1, f e.2)) k = (alookup m k).map f := by
  induction m with
  | nil => rfl
  | cons e rest ih =>
    rw [List.map_cons, alookup_cons, alookup_cons]
    cases he : (e.1 == k) with
    | true => simp [he]
    | false => simp [he, ih]

theorem alookup_mem {α : Type} (m : List (String × α)) (k : String) (v : α)
    (h : alookup m k = some v) : ∃ k2, (k2, v) ∈ m := by
  unfold alookup at h
  cases hf : m.find? fun e => e.1 == k with
  | none => rw [hf] at h; simp at h
  | some e =>
    rw [hf] at h
    have hv : e.2 = v := by simpa using h
    refine ⟨e.1, ?_⟩
    have hm := List.mem_of_find?_eq_some hf
    rw [← hv, Prod.mk.eta]
    exact hm

theorem mem_aset {α : Type} (m : List (String × α)) (k : String) (v : α)
    (e : String × α) (h : e ∈ aset m k v) : e ∈ m ∨ e = (k, v) := by
  unfold aset at h
  rcases List.mem_map.mp h with ⟨e2, he2, heq⟩
  by_cases hk : (e2.1 == k) = true
  · right
    rw [if_pos hk] at heq
    exact heq.symm
  · left
    rw [if_neg hk] at heq
    exact heq ▸ he2

/-- The shared error taxonomy of the controllers (each raised as Error in the
source; classified per the failure modes of the operations). -/
inductive CtrlError
  | duplicateEntity
  | unknownEntity
  | unknownRoute
  | invalidState
  | invalidTransition
  | capacity
deriving DecidableEq, Repr

-- ===========================================================================
-- Structure controller (controllers.js): build / operate / upgrade /
-- decommission lifecycle
-- ===========================================================================

namespace Structures

/-- The StructureState enumeration. -/
inductive StructureState
  | planned
  | building
  | operational
  | upgrading
  | decommissioned
deriving DecidableEq, Repr

/-- One entry of the structures map. -/
structure Facility where
  state : StructureState
  tier : Int
  ticksRemaining : Int
deriving DecidableEq, Repr

/-- The owned structures table, in insertion order. -/
abbrev Ctrl := List (String × Facility)

/-- Lookup helper _get without the throw (none models the throw). -/
def lookupFacility (m : Ctrl) (id : String) : Option Facility := alookup m id

/-- The register operation: creates a PLANNED entry, or fails on a duplicate
id leaving the table unchanged. Each operation returns the call result
together with the table as it is when the call ends (also after a throw). -/
def register (m : Ctrl) (id : String) (tier : Int) : Except CtrlError Unit × Ctrl :=
  if (lookupFacility m id).isSome then (.error .duplicateEntity, m)
  else (.ok (), m ++ [(id, ⟨.planned, tier, 0⟩)])

/-- The startBuild operation: PLANNED to BUILDING, setting the countdown. -/
def startBuild (m : Ctrl) (id : String) (ticks : Int) : Except CtrlError Unit × Ctrl :=
  match lookupFacility m id with
  | none => (.error .unknownEntity, m)
  | some s =>
    if s.state ≠ .planned then (.error .invalidTransition, m)
    else (.ok (), aset m id { s with state := .building, ticksRemaining := ticks })

/-- The startUpgrade operation: OPERATIONAL to UPGRADING. -/
def startUpgrade (m : Ctrl) (id : String) (ticks : Int) :
    Except CtrlError Unit × Ctrl :=
  match lookupFacility m id with
  | none => (.error .unknownEntity, m)
  | some s =>
    if s.state ≠ .operational then (.error .invalidTransition, m)
    else (.ok (), aset m id { s with state := .upgrading, ticksRemaining := ticks })

/-- The decommission operation: any present state to DECOMMISSIONED. -/
def decommission (m : Ctrl) (id : String) : Except CtrlError Unit × Ctrl :=
  match lookupFacility m id with
  | none => (.error .unknownEntity, m)
  | some s =>
    (.ok (), aset m id { s with state := .decommissioned, ticksRemaining := 0 })

/-- Per-entity advancement of one tick, as in the loop body of tick. -/
def tickFacility (s : Facility) : Facility :=
  if s.state = .building ∨ s.state = .upgrading then
    let r := max 0 (s.ticksRemaining - 1)
    if r = 0 then
      { state := .operational,
        tier := if s.state = .upgrading then s.tier + 1 else s.tier,
        ticksRemaining := r }
    else { s with ticksRemaining := r }
  else s

/-- The tick operation: advances every entity of the table by one tick. -/
def tick (m : Ctrl) : Ctrl := m.map fun e => (e.1, tickFacility e.2)

/-- The getState query: a detached snapshot, or the unknown-entity error. -/
def getState (m : Ctrl) (id : String) : Except CtrlError Facility :=
  match lookupFacility m id with
  | none => .error .unknownEntity
  | some s => .ok s

/-- The operations of the controller, for statements about op sequences. -/
inductive Op
  | register (id : String) (tier : Int)
  | startBuild (id : String) (ticks : Int)
  | startUpgrade (id : String) (ticks : Int)
  | decommission (id : String)
  | tick

/-- The table after running one operation (a failed operation leaves the
table as the call left it). -/
def applyOp (m : Ctrl) : Op → Ctrl
  | .register id tier => (register m id tier).2
  | .startBuild id t => (startBuild m id t).2
  | .startUpgrade id t => (startUpgrade m id t).2
  | .decommission id => (decommission m id).2
  | .tick => tick m

/-- The table after running a sequence of operations. -/
def applyOps (m : Ctrl) (ops : List Op) : Ctrl := ops.foldl applyOp m

theorem lookupFacility_tick (m : Ctrl) (id : String) :
    lookupFacility (tick m) id = (lookupFacility m id).map tickFacility :=
  alookup_map_value m tickFacility id

theorem lookupFacility_tick_iterate (m : Ctrl) (id : String) (j : Nat) :
    lookupFacility (tick^[j] m) id = (lookupFacility m id).map (tickFacility^[j]) := by
  induction j generalizing m with
  | zero => simp
  | succ n ih =>
    rw [Function.iterate_succ_apply, ih, lookupFacility_tick]
    cases lookupFacility m id <;> simp [Function.iterate_succ_apply]

theorem tickFacility_building_step (tier r : Int) :
    tickFacility ⟨.building, tier, r⟩ =
      if max 0 (r - 1) = 0 then ⟨.operational, tier, 0⟩
      else ⟨.building, tier, max 0 (r - 1)⟩ := by
  unfold tickFacility
  rw [if_pos (by simp)]
  simp only []
  split
  · rename_i h0
    simp [h0]
  · rfl

theorem tickFacility_upgrading_step (tier r : Int) :
    tickFacility ⟨.upgrading, tier, r⟩ =
      if max 0 (r - 1) = 0 then ⟨.operational, tier + 1, 0⟩
      else ⟨.upgrading, tier, max 0 (r - 1)⟩ := by
  unfold tickFacility
  rw [if_pos (by simp)]
  simp only []
  split
  · rename_i h0
    simp [h0]
  · rfl

theorem tickFacility_iterate_building (tier : Int) (n j : Nat) (hn : 1 ≤ n)
    (hj : j ≤ n) :
    tickFacility^[j] ⟨.building, tier, (n : Int)⟩ =
      if j < n then ⟨.building, tier, (n : Int) - j⟩ else ⟨.operational, tier, 0⟩ := by
  induction j with
  | zero =>
    rw [if_pos (by omega)]
    simp
  | succ j ih =>
    have hjn : j < n := by omega
    rw [Function.iterate_succ_apply', ih (by omega), if_pos hjn,
      tickFacility_building_step]
    by_cases hc : j + 1 = n
    · have hr : max 0 ((n : Int) - j - 1) = 0 := by omega
      rw [if_pos hr, if_neg (by omega)]
    · have hr : ¬ max 0 ((n : Int) - j - 1) = 0 := by omega
      rw [if_neg hr, if_pos (by omega)]
      have : max 0 ((n : Int) - j - 1) = (n : Int) - (j + 1 : Nat) := by push_cast; omega
      rw [this]

theorem tickFacility_iterate_upgrading (tier : Int) (n j : Nat) (hn : 1 ≤ n)
    (hj : j ≤ n) :
    tickFacility^[j] ⟨.upgrading, tier, (n : Int)⟩ =
      if j < n then ⟨.upgrading, tier, (n : Int) - j⟩
      else ⟨.operational, tier + 1, 0⟩ := by
  induction j with
  | zero =>
    rw [if_pos (by omega)]
    simp
  | succ j ih =>
    have hjn : j < n := by omega
    rw [Function.iterate_succ_apply', ih (by omega), if_pos hjn,
      tickFacility_upgrading_step]
    by_cases hc : j + 1 = n
    · have hr : max 0 ((n : Int) - j - 1) = 0 := by omega
      rw [if_pos hr, if_neg (by omega)]
    · have hr : ¬ max 0 ((n : Int) - j - 1) = 0 := by omega
      rw [if_neg hr, if_pos (by omega)]
      have : max 0 ((n : Int) - j - 1) = (n : Int) - (j + 1 : Nat) := by push_cast; omega
      rw [this]

/-- C6: from a fresh id, register then startBuild(n) then n ticks move the
facility PLANNED to BUILDING to OPERATIONAL, with ticksRemaining strictly
decreasing to 0 and OPERATIONAL reached exactly on the n-th tick; and from
any OPERATIONAL facility at tier t, startUpgrade(k) followed by k ticks
leaves it OPERATIONAL at tier t + 1. -/
theorem lifecycle_build_and_upgrade (m : Ctrl) (id : String) (n : Nat) (hn : 1 ≤ n)
    (hfresh : lookupFacility m id = none) :
    (register m id 1).1 = .ok () ∧
    lookupFacility (register m id 1).2 id = some ⟨.planned, 1, 0⟩ ∧
    (startBuild (register m id 1).2 id n).1 = .ok () ∧
    (∀ j : Nat, j < n →
      lookupFacility (tick^[j] (startBuild (register m id 1).2 id n).2) id =
        some ⟨.building, 1, (n : Int) - j⟩) ∧
    lookupFacility (tick^[n] (startBuild (register m id 1).2 id n).2) id =
      some ⟨.operational, 1, 0⟩ ∧
    (∀ (m2 : Ctrl) (t r : Int) (k : Nat), 1 ≤ k →
      lookupFacility m2 id = some ⟨.operational, t, r⟩ →
      (startUpgrade m2 id k).1 = .ok () ∧
      lookupFacility (tick^[k] (startUpgrade m2 id k).2) id =
        some ⟨.operational, t + 1, 0⟩) := by
  have hm1 : (register m id 1).2 = m ++ [(id, ⟨.planned, 1, 0⟩)] := by
    unfold register
    rw [hfresh]
    rfl
  have hreg : (register m id 1).1 = .ok () := by
    unfold register
    rw [hfresh]
    rfl
  have hlook1 : lookupFacility (register m id 1).2 id = some ⟨.planned, 1, 0⟩ := by
    rw [hm1]
    unfold lookupFacility
    rw [alookup_append_none m _ id hfresh, alookup_cons]
    simp
  have hbuild : (startBuild (register m id 1).2 id n).1 = .ok () := by
    unfold startBuild
    rw [hlook1]
    rfl
  have hm2 : (startBuild (register m id 1).2 id n).2 =
      aset (register m id 1).2 id ⟨.building, 1, (n : Int)⟩ := by
    unfold startBuild
    rw [hlook1]
    rfl
  have hlook2 : lookupFacility (startBuild (register m id 1).2 id n).2 id =
      some ⟨.building, 1, (n : Int)⟩ := by
    rw [hm2]
    exact alookup_aset_self _ _ _ (by rw [show alookup (register m id 1).2 id =
      some ⟨.planned, 1, 0⟩ from hlook1]; rfl)
  refine ⟨hreg, hlook1, hbuild, ?_, ?_, ?_⟩
  · intro j hj
    rw [lookupFacility_tick_iterate, hlook2]
    simp only [Option.map_some']
    rw [tickFacility_iterate_building 1 n j hn (by omega), if_pos hj]
  · rw [lookupFacility_tick_iterate, hlook2]
    simp only [Option.map_some']
    rw [tickFacility_iterate_building 1 n n hn (by omega), if_neg (by omega)]
  · intro m2 t r k hk hop
    have hupg : (startUpgrade m2 id k).1 = .ok () := by
      unfold startUpgrade
      rw [show lookupFacility m2 id = some ⟨.operational, t, r⟩ from hop]
      rfl
    have hm3 : (startUpgrade m2 id k).2 = aset m2 id ⟨.upgrading, t, (k : Int)⟩ := by
      unfold startUpgrade
      rw [show lookupFacility m2 id = some ⟨.operational, t, r⟩ from hop]
      rfl
    have hlook3 : lookupFacility (startUpgrade m2 id k).2 id =
        some ⟨.upgrading, t, (k : Int)⟩ := by
      rw [hm3]
      exact alookup_aset_self _ _ _ (by rw [show alookup m2 id =
        some ⟨.operational, t, r⟩ from hop]; rfl)
    refine ⟨hupg, ?_⟩
    rw [lookupFacility_tick_iterate, hlook3]
    simp only [Option.map_some']
    rw [tickFacility_iterate_upgrading t k k hk (by omega), if_neg (by omega)]

/-- Witness for C6: a fresh table, one facility, a one-tick build. -/
theorem lifecycle_build_and_upgrade_witness :
    1 ≤ 1 ∧ lookupFacility ([] : Ctrl) "fab" = none ∧
    lookupFacility (tick^[1] (startBuild (register ([] : Ctrl) "fab" 1).2 "fab" 1).2)
      "fab" = some ⟨.operational, 1, 0⟩ :=
  ⟨le_refl 1, rfl, (lifecycle_build_and_upgrade [] "fab" 1 (le_refl 1) rfl).2.2.2.2.1⟩

theorem decommissioned_preserved (m : Ctrl) (id : String) (t : Int)
    (hd : lookupFacility m id = some ⟨.decommissioned, t, 0⟩) (op : Op) :
    lookupFacility (applyOp m op) id = some ⟨.decommissioned, t, 0⟩ := by
  cases op with
  | register id2 tier =>
    simp only [applyOp, register]
    split
    · exact hd
    · exact alookup_append_some m _ id _ hd
  | startBuild id2 ticks =>
    simp only [applyOp, startBuild]
    cases hl : lookupFacility m id2 with
    | none => exact hd
    | some s =>
      dsimp only
      split
      · exact hd
      · rename_i hst
        by_cases hid : id = id2
        · subst hid
          rw [hd] at hl
          have hs : s = ⟨.decommissioned, t, 0⟩ := by
            injection hl with h2
            exact h2.symm
          rw [hs] at hst
          simp at hst
        · unfold lookupFacility
          rw [alookup_aset_ne _ _ _ _ hid]
          exact hd
  | startUpgrade id2 ticks =>
    simp only [applyOp, startUpgrade]
    cases hl : lookupFacility m id2 with
    | none => exact hd
    | some s =>
      dsimp only
      split
      · exact hd
      · rename_i hst
        by_cases hid : id = id2
        · subst hid
          rw [hd] at hl
          have hs : s = ⟨.decommissioned, t, 0⟩ := by
            injection hl with h2
            exact h2.symm
          rw [hs] at hst
          simp at hst
        · unfold lookupFacility
          rw [alookup_aset_ne _ _ _ _ hid]
          exact hd
  | decommission id2 =>
    simp only [applyOp, decommission]
    cases hl : lookupFacility m id2 with
    | none => exact hd
    | some s =>
      dsimp only
      by_cases hid : id = id2
      · subst hid
        rw [hd] at hl
        have hs : s = ⟨.decommissioned, t, 0⟩ := by
          injection hl with h2
          exact h2.symm
        subst hs
        exact alookup_aset_self _ _ _
          (by rw [show alookup m id = some (⟨.decommissioned, t, 0⟩ : Facility) from hd]
              rfl)
      · unfold lookupFacility
        rw [alookup_aset_ne _ _ _ _ hid]
        exact hd
  | tick =>
    rw [show applyOp m .tick = tick m from rfl, lookupFacility_tick, hd]
    rfl

theorem decommissioned_preserved_ops (m : Ctrl) (id : String) (t : Int)
    (hd : lookupFacility m id = some ⟨.decommissioned, t, 0⟩) (ops : List Op) :
    lookupFacility (applyOps m ops) id = some ⟨.decommissioned, t, 0⟩ := by
  induction ops generalizing m with
  | nil => exact hd
  | cons op rest ih => exact ih _ (decommissioned_preserved m id t hd op)

/-- C7: decommission succeeds on any present facility, setting the state to
DECOMMISSIONED and the countdown to 0; afterwards every further operation
sequence leaves the facility DECOMMISSIONED with the same tier and zero
countdown, and startBuild and startUpgrade on it fail with the
invalid-transition error. -/
theorem decommission_terminal (m : Ctrl) (id : String) (f : Facility)
    (h : lookupFacility m id = some f) :
    (decommission m id).1 = .ok () ∧
    lookupFacility (decommission m id).2 id = some ⟨.decommissioned, f.tier, 0⟩ ∧
    (∀ ops : List Op, lookupFacility (applyOps (decommission m id).2 ops) id =
      some ⟨.decommissioned, f.tier, 0⟩) ∧
    (∀ ticks : Int, (startBuild (decommission m id).2 id ticks).1 =
      .error .invalidTransition) ∧
    (∀ ticks : Int, (startUpgrade (decommission m id).2 id ticks).1 =
      .error .invalidTransition) := by
  have hok : (decommission m id).1 = .ok () := by
    unfold decommission
    rw [h]
  have hm1 : (decommission m id).2 = aset m id ⟨.decommissioned, f.tier, 0⟩ := by
    unfold decommission
    rw [h]
  have hl : lookupFacility (decommission m id).2 id =
      some ⟨.decommissioned, f.tier, 0⟩ := by
    rw [hm1]
    exact alookup_aset_self _ _ _ (by rw [show alookup m id = some f from h]; rfl)
  refine ⟨hok, hl, ?_, ?_, ?_⟩
  · intro ops
    exact decommissioned_preserved_ops _ _ _ hl ops
  · intro ticks
    unfold startBuild
    rw [hl]
    rfl
  · intro ticks
    unfold startUpgrade
    rw [hl]
    rfl

/-- Witness for C7: one planned facility, decommissioned, then a build
attempt and a tick applied on top. -/
theorem decommission_terminal_witness :
    lookupFacility [("s", (⟨.planned, 1, 0⟩ : Facility))] "s" = some ⟨.planned, 1, 0⟩ ∧
    lookupFacility (applyOps (decommission [("s", ⟨.planned, 1, 0⟩)] "s").2
      [Op.startBuild "s" 3, Op.tick]) "s" = some ⟨.decommissioned, 1, 0⟩ :=
  ⟨rfl, (decommission_terminal [("s", ⟨.planned, 1, 0⟩)] "s" ⟨.planned, 1, 0⟩
    rfl).2.2.1 [Op.startBuild "s" 3, Op.tick]⟩

end Structures

-- ===========================================================================
-- Swarm controller (controllers.js): drone dispatch, collection and return
-- ===========================================================================

namespace Swarm

/-- The per-drone state cycle. -/
inductive DroneState
  | idle
  | collecting
  | returning
deriving DecidableEq, Repr

/-- A 3-vector position. -/
structure Vec3 where
  x : ℚ
  y : ℚ
  z : ℚ
deriving DecidableEq, Repr

/-- The droneSpec section of the swarm configuration. -/
structure DroneSpec where
  cargoCapacity : ℚ
  returnThreshold : ℚ
deriving DecidableEq, Repr

/-- A patrol route with ordered waypoints. -/
structure Route where
  id : String
  waypoints : List Vec3
deriving DecidableEq, Repr

/-- The swarm section of the blueprint. -/
structure SwarmConfig where
  maxDrones : Nat
  droneSpec : DroneSpec
  patrolRoutes : List Route
deriving DecidableEq, Repr

/-- One entry of the drones map. -/
structure Drone where
  cargo : ℚ
  position : Vec3
  state : DroneState
  routeId : Option String
deriving DecidableEq, Repr

/-- The controller: configuration, owned drone table, next sequential id. -/
structure SwarmCtrl where
  config : SwarmConfig
  drones : List (String × Drone)
  nextDroneId : Nat
deriving DecidableEq, Repr

/-- A fresh controller over a configuration. -/
def newSwarm (cfg : SwarmConfig) : SwarmCtrl := ⟨cfg, [], 0⟩

/-- Lookup helper _getDrone without the throw (none models the throw). -/
def getDrone (c : SwarmCtrl) (droneId : String) : Option Drone :=
  alookup c.drones droneId

/-- The spawnDrone operation: a new idle drone at the origin, or the capacity
error when the fleet is full. -/
def spawnDrone (c : SwarmCtrl) : Except CtrlError String × SwarmCtrl :=
  if c.drones.length ≥ c.config.maxDrones then (.error .capacity, c)
  else
    let id := "drone-" ++ toString c.nextDroneId
    (.ok id,
     { c with drones := c.drones ++ [(id, ⟨0, ⟨0, 0, 0⟩, .idle, none⟩)],
              nextDroneId := c.nextDroneId + 1 })

/-- The dispatch operation: idle to collecting, teleporting the drone to the
first waypoint of the route. -/
def dispatch (c : SwarmCtrl) (droneId routeId : String) :
    Except CtrlError Unit × SwarmCtrl :=
  match getDrone c droneId with
  | none => (.error .unknownEntity, c)
  | some drone =>
    match c.config.patrolRoutes.find? fun r => r.id == routeId with
    | none => (.error .unknownRoute, c)
    | some route =>
      if drone.state ≠ .idle then (.error .invalidState, c)
      else
        let moved := { drone with state := DroneState.collecting,
                                  routeId := some routeId,
                                  position := route.waypoints.headD ⟨0, 0, 0⟩ }
        (.ok (), { c with drones := aset c.drones droneId moved })

/-- The collect operation: adds the clamped amount, returns the actual amount
added, and flips to returning when the cargo ratio reaches the headroom
threshold. -/
def collect (c : SwarmCtrl) (droneId : String) (amount : ℚ) :
    Except CtrlError ℚ × SwarmCtrl :=
  match getDrone c droneId with
  | none => (.error .unknownEntity, c)
  | some drone =>
    if drone.state ≠ .collecting then (.error .invalidState, c)
    else
      let space := c.config.droneSpec.cargoCapacity - drone.cargo
      let actual := min amount space
      let cargo2 := drone.cargo + actual
      let st := if cargo2 / c.config.droneSpec.cargoCapacity ≥
          1 - c.config.droneSpec.returnThreshold then DroneState.returning
        else drone.state
      let filled := { drone with cargo := cargo2, state := st }
      (.ok actual, { c with drones := aset c.drones droneId filled })

/-- The returnToHub operation: offloads the cargo, resets position and route,
and sets the drone idle; valid from collecting or returning. -/
def returnToHub (c : SwarmCtrl) (droneId : String) : Except CtrlError ℚ × SwarmCtrl :=
  match getDrone c droneId with
  | none => (.error .unknownEntity, c)
  | some drone =>
    if drone.state ≠ .returning ∧ drone.state ≠ .collecting
    then (.error .invalidState, c)
    else
      let unloaded := { drone with cargo := 0, position := (⟨0, 0, 0⟩ : Vec3),
                                   state := DroneState.idle, routeId := none }
      (.ok drone.cargo, { c with drones := aset c.drones droneId unloaded })

/-- The idleCount query. -/
def idleCount (c : SwarmCtrl) : Nat :=
  c.drones.countP fun e => e.2.state == DroneState.idle

theorem collect_step (c : SwarmCtrl) (droneId : String) (d : Drone) (amount : ℚ)
    (hd : getDrone c droneId = some d) (hst : d.state = .collecting) :
    (collect c droneId amount).1 =
      .ok (min amount (c.config.droneSpec.cargoCapacity - d.cargo)) ∧
    (collect c droneId amount).2.config = c.config ∧
    getDrone (collect c droneId amount).2 droneId = some
      { d with
        cargo := d.cargo + min amount (c.config.droneSpec.cargoCapacity - d.cargo),
        state :=
          if (d.cargo + min amount (c.config.droneSpec.cargoCapacity - d.cargo)) /
              c.config.droneSpec.cargoCapacity ≥
              1 - c.config.droneSpec.returnThreshold
          then DroneState.returning else DroneState.collecting } := by
  unfold collect
  rw [hd]
  dsimp only
  rw [if_neg (by simp [hst])]
  refine ⟨rfl, rfl, ?_⟩
  unfold getDrone
  dsimp only
  rw [hst]
  exact alookup_aset_self _ _ _
    (by rw [show alookup c.drones droneId = some d from hd]; rfl)

/-- The example swarm configuration of the spec scenario: cargoCapacity 50,
returnThreshold 1/10, one patrol route with a single waypoint. -/
def exampleConfig : SwarmConfig :=
  ⟨12, ⟨50, 1 / 10⟩, [⟨"route-1", [⟨1, 2, 3⟩]⟩]⟩

/-- The controller after spawning one drone and dispatching it on the route. -/
def exampleAfterDispatch : SwarmCtrl :=
  (dispatch (spawnDrone (newSwarm exampleConfig)).2 "drone-0" "route-1").2

/-- C8: collect on a collecting drone with cargo g adds min(amount,
cargoCapacity - g), returns exactly that amount, and flips the drone to
returning exactly when the resulting cargo over cargoCapacity reaches
1 - returnThreshold; with capacity 50 and threshold 1/10, collecting 20 then
30 on a freshly dispatched drone gives cargo 20 (still collecting, since
20 < 45) and then cargo 50 (returning, since 50 is at least 45). -/
theorem collect_clamps_and_flips (c : SwarmCtrl) (droneId : String) (d : Drone)
    (amount : ℚ) (hd : getDrone c droneId = some d) (hst : d.state = .collecting) :
    ((collect c droneId amount).1 =
      .ok (min amount (c.config.droneSpec.cargoCapacity - d.cargo)) ∧
     getDrone (collect c droneId amount).2 droneId = some
      { d with
        cargo := d.cargo + min amount (c.config.droneSpec.cargoCapacity - d.cargo),
        state :=
          if (d.cargo + min amount (c.config.droneSpec.cargoCapacity - d.cargo)) /
              c.config.droneSpec.cargoCapacity ≥
              1 - c.config.droneSpec.returnThreshold
          then DroneState.returning else DroneState.collecting }) ∧
    (collect exampleAfterDispatch "drone-0" 20).1 = .ok 20 ∧
    getDrone (collect exampleAfterDispatch "drone-0" 20).2 "drone-0" =
      some ⟨20, ⟨1, 2, 3⟩, .collecting, some "route-1"⟩ ∧
    (collect (collect exampleAfterDispatch "drone-0" 20).2 "drone-0" 30).1 = .ok 30 ∧
    getDrone ((collect (collect exampleAfterDispatch "drone-0" 20).2 "drone-0" 30).2)
      "drone-0" = some ⟨50, ⟨1, 2, 3⟩, .returning, some "route-1"⟩ := by
  obtain ⟨hr, _, hg⟩ := collect_step c droneId d amount hd hst
  refine ⟨⟨hr, hg⟩, ?_⟩
  have h1 : getDrone exampleAfterDispatch "drone-0" =
      some ⟨0, ⟨1, 2, 3⟩, .collecting, some "route-1"⟩ := rfl
  obtain ⟨hr1, hc1, hg1⟩ :=
    collect_step exampleAfterDispatch "drone-0" ⟨0, ⟨1, 2, 3⟩, .collecting,
      some "route-1"⟩ 20 h1 rfl
  rw [show exampleAfterDispatch.config = exampleConfig from rfl] at hr1 hg1
  norm_num [exampleConfig, min_def] at hr1 hg1
  refine ⟨hr1, hg1, ?_, ?_⟩
  · obtain ⟨hr2, hc2, hg2⟩ :=
      collect_step (collect exampleAfterDispatch "drone-0" 20).2 "drone-0"
        ⟨20, ⟨1, 2, 3⟩, .collecting, some "route-1"⟩ 30 hg1 rfl
    rw [hc1, show exampleAfterDispatch.config = exampleConfig from rfl] at hr2
    norm_num [exampleConfig, min_def] at hr2
    exact hr2
  · obtain ⟨hr2, hc2, hg2⟩ :=
      collect_step (collect exampleAfterDispatch "drone-0" 20).2 "drone-0"
        ⟨20, ⟨1, 2, 3⟩, .collecting, some "route-1"⟩ 30 hg1 rfl
    rw [hc1, show exampleAfterDispatch.config = exampleConfig from rfl] at hg2
    norm_num [exampleConfig, min_def] at hg2
    exact hg2

/-- Witness for C8 at the scenario drone itself. -/
theorem collect_clamps_and_flips_witness :
    getDrone exampleAfterDispatch "drone-0" =
      some ⟨0, ⟨1, 2, 3⟩, .collecting, some "route-1"⟩ ∧
    (collect exampleAfterDispatch "drone-0" 20).1 = .ok 20 :=
  ⟨rfl, (collect_clamps_and_flips exampleAfterDispatch "drone-0"
    ⟨0, ⟨1, 2, 3⟩, .collecting, some "route-1"⟩ 20 rfl rfl).2.1⟩

/-- The mutating operations of the swarm controller. -/
inductive SwarmOp
  | spawn
  | dispatch (droneId routeId : String)
  | collect (droneId : String) (amount : ℚ)
  | returnHub (droneId : String)

/-- The controller state after one operation (also after a failed one, which
leaves the state as the call left it). -/
def applySwarmOp (c : SwarmCtrl) : SwarmOp → SwarmCtrl
  | .spawn => (spawnDrone c).2
  | .dispatch d r => (dispatch c d r).2
  | .collect d a => (collect c d a).2
  | .returnHub d => (returnToHub c d).2

/-- The controller state after a sequence of operations. -/
def runSwarmOps (c : SwarmCtrl) (ops : List SwarmOp) : SwarmCtrl :=
  ops.foldl applySwarmOp c

/-- Whether an operation requests only a non-negative collect amount. -/
def nonNegAmount : SwarmOp → Prop
  | .collect _ a => 0 ≤ a
  | _ => True

/-- Every drone's cargo lies within [0, cargoCapacity]. -/
def cargoInv (c : SwarmCtrl) : Prop :=
  ∀ e ∈ c.drones, 0 ≤ e.2.cargo ∧ e.2.cargo ≤ c.config.droneSpec.cargoCapacity

theorem config_applySwarmOp (c : SwarmCtrl) (op : SwarmOp) :
    (applySwarmOp c op).config = c.config := by
  cases op with
  | spawn =>
    simp only [applySwarmOp, spawnDrone]
    split <;> rfl
  | dispatch d r =>
    simp only [applySwarmOp, dispatch]
    cases getDrone c d with
    | none => rfl
    | some drone =>
      dsimp only
      cases c.config.patrolRoutes.find? fun rt => rt.id == r with
      | none => rfl
      | some route =>
        dsimp only
        split <;> rfl
  | collect d a =>
    simp only [applySwarmOp, collect]
    cases getDrone c d with
    | none => rfl
    | some drone =>
      dsimp only
      split <;> rfl
  | returnHub d =>
    simp only [applySwarmOp, returnToHub]
    cases getDrone c d with
    | none => rfl
    | some drone =>
      dsimp only
      split <;> rfl

theorem cargoInv_applySwarmOp (c : SwarmCtrl) (op : SwarmOp)
    (hcap : 0 ≤ c.config.droneSpec.cargoCapacity)
    (hinv : cargoInv c) (hop : nonNegAmount op) : cargoInv (applySwarmOp c op) := by
  have hcfg := config_applySwarmOp c op
  cases op with
  | spawn =>
    simp only [applySwarmOp, spawnDrone]
    split
    · exact hinv
    · intro e he
      simp only [List.mem_append, List.mem_singleton] at he
      rcases he with he | he
      · exact hinv e he
      · subst he
        exact ⟨le_refl 0, hcap⟩
  | dispatch d r =>
    simp only [applySwarmOp, dispatch]
    cases hg : getDrone c d with
    | none => exact hinv
    | some drone =>
      dsimp only
      cases c.config.patrolRoutes.find? fun rt => rt.id == r with
      | none => exact hinv
      | some route =>
        dsimp only
        split
        · exact hinv
        · intro e he
          rcases mem_aset _ _ _ _ he with he2 | he2
          · exact hinv e he2
          · subst he2
            obtain ⟨k2, hk2⟩ := alookup_mem _ _ _ hg
            exact hinv (k2, drone) hk2
  | collect d a =>
    simp only [applySwarmOp, collect]
    cases hg : getDrone c d with
    | none => exact hinv
    | some drone =>
      dsimp only
      split
      · exact hinv
      · intro e he
        rcases mem_aset _ _ _ _ he with he2 | he2
        · exact hinv e he2
        · subst he2
          obtain ⟨k2, hk2⟩ := alookup_mem _ _ _ hg
          obtain ⟨h0, hle⟩ := hinv (k2, drone) hk2
          have ha : (0 : ℚ) ≤ a := hop
          constructor
          · have : (0 : ℚ) ≤ min a (c.config.droneSpec.cargoCapacity - drone.cargo) :=
              le_min ha (by linarith)
            simp only []
            linarith
          · have : min a (c.config.droneSpec.cargoCapacity - drone.cargo) ≤
                c.config.droneSpec.cargoCapacity - drone.cargo := min_le_right _ _
            simp only []
            linarith
  | returnHub d =>
    simp only [applySwarmOp, returnToHub]
    cases hg : getDrone c d with
    | none => exact hinv
    | some drone =>
      dsimp only
      split
      · exact hinv
      · intro e he
        rcases mem_aset _ _ _ _ he with he2 | he2
        · exact hinv e he2
        · subst he2
          exact ⟨le_refl 0, hcap⟩

theorem cargoInv_runSwarmOps (c : SwarmCtrl)
    (hcap : 0 ≤ c.config.droneSpec.cargoCapacity) (hinv : cargoInv c)
    (ops : List SwarmOp) (hops : ∀ op ∈ ops, nonNegAmount op) :
    cargoInv (runSwarmOps c ops) := by
  induction ops generalizing c with
  | nil => exact hinv
  | cons op rest ih =>
    have h1 := cargoInv_applySwarmOp c op hcap hinv (hops op (by simp))
    have h2 : 0 ≤ (applySwarmOp c op).config.droneSpec.cargoCapacity := by
      rw [config_applySwarmOp]
      exact hcap
    exact ih _ h2 h1 fun o ho => hops o (by simp [ho])

/-- Counterexample for C9: from a fresh controller, spawn and dispatch, then
collect with the negative amount -10: the call succeeds, returns -10, and
leaves the drone at cargo -10, below 0. -/
theorem swarm_negative_collect_counterexample :
    (collect exampleAfterDispatch "drone-0" (-10)).1 = .ok (-10) ∧
    getDrone (collect exampleAfterDispatch "drone-0" (-10)).2 "drone-0" =
      some ⟨-10, ⟨1, 2, 3⟩, .collecting, some "route-1"⟩ ∧
    ¬ (0 ≤ (-10 : ℚ)) := by
  obtain ⟨hr, hc, hg⟩ := collect_step exampleAfterDispatch "drone-0"
    ⟨0, ⟨1, 2, 3⟩, .collecting, some "route-1"⟩ (-10) rfl rfl
  rw [show exampleAfterDispatch.config = exampleConfig from rfl] at hr hg
  norm_num [exampleConfig, min_def] at hr hg
  exact ⟨hr, hg, by norm_num⟩

/-- C9 amended: starting from a fresh controller whose configured
cargoCapacity is non-negative, and along any operation sequence whose collect
amounts are all non-negative, every drone's cargo stays within
[0, cargoCapacity]; moreover in any state satisfying that invariant, a
successful collect with non-negative requested amount and a successful
returnToHub return non-negative amounts. -/
theorem swarm_cargo_bounds (cfg : SwarmConfig)
    (hcap : 0 ≤ cfg.droneSpec.cargoCapacity) (ops : List SwarmOp)
    (hops : ∀ op ∈ ops, nonNegAmount op) :
    cargoInv (runSwarmOps (newSwarm cfg) ops) ∧
    (∀ (c : SwarmCtrl) (dId : String) (a v : ℚ), cargoInv c → 0 ≤ a →
      (collect c dId a).1 = .ok v → 0 ≤ v) ∧
    (∀ (c : SwarmCtrl) (dId : String) (v : ℚ), cargoInv c →
      (returnToHub c dId).1 = .ok v → 0 ≤ v) := by
  refine ⟨cargoInv_runSwarmOps _ hcap (by intro e he; simp [newSwarm] at he) ops hops,
    ?_, ?_⟩
  · intro c dId a v hinv ha hv
    unfold collect at hv
    cases hg : getDrone c dId with
    | none => rw [hg] at hv; simp at hv
    | some drone =>
      rw [hg] at hv
      dsimp only at hv
      by_cases hst : drone.state ≠ DroneState.collecting
      · rw [if_pos hst] at hv
        simp at hv
      · rw [if_neg hst] at hv
        simp only [Except.ok.injEq] at hv
        obtain ⟨k2, hk2⟩ := alookup_mem _ _ _ hg
        obtain ⟨h0, hle⟩ := hinv (k2, drone) hk2
        have : (0 : ℚ) ≤ min a (c.config.droneSpec.cargoCapacity - drone.cargo) :=
          le_min ha (by linarith)
        rw [← hv]
        exact this
  · intro c dId v hinv hv
    unfold returnToHub at hv
    cases hg : getDrone c dId with
    | none => rw [hg] at hv; simp at hv
    | some drone =>
      rw [hg] at hv
      dsimp only at hv
      split at hv
      · simp at hv
      · simp only [Except.ok.injEq] at hv
        obtain ⟨k2, hk2⟩ := alookup_mem _ _ _ hg
        obtain ⟨h0, hle⟩ := hinv (k2, drone) hk2
        rw [← hv]
        exact h0

/-- Witness for the amended C9: the scenario configuration, with spawn,
dispatch and one collect of 20. -/
theorem swarm_cargo_bounds_witness :
    (0 : ℚ) ≤ exampleConfig.droneSpec.cargoCapacity ∧
    (∀ op ∈ [SwarmOp.spawn, SwarmOp.dispatch "drone-0" "route-1",
      SwarmOp.collect "drone-0" 20], nonNegAmount op) ∧
    cargoInv (runSwarmOps (newSwarm exampleConfig)
      [SwarmOp.spawn, SwarmOp.dispatch "drone-0" "route-1",
       SwarmOp.collect "drone-0" 20]) := by
  have h1 : (0 : ℚ) ≤ exampleConfig.droneSpec.cargoCapacity := by
    norm_num [exampleConfig]
  have h2 : ∀ op ∈ [SwarmOp.spawn, SwarmOp.dispatch "drone-0" "route-1",
      SwarmOp.collect "drone-0" 20], nonNegAmount op := by
    intro op hop
    fin_cases hop <;> norm_num [nonNegAmount]
  exact ⟨h1, h2, (swarm_cargo_bounds exampleConfig h1 _ h2).1⟩

end Swarm

-- ===========================================================================
-- Route planner (controllers.js): intake, processing, storage, distribution
-- ===========================================================================

namespace Planner

/-- A blueprint structure entry; fields a given structure kind does not carry
in the blueprint are modelled as Option (absent) or left unread. -/
structure Structure where
  id : String
  type : String
  throughput : ℚ
  rate : ℚ
  from_ : String
  inputTypes : Option (List String)
  outputTypes : List String
  storedType : Option String
  maxUnits : Option ℚ
deriving DecidableEq, Repr

/-- A zone-to-zone connection with its bandwidth. -/
structure Connection where
  from_ : String
  to_ : String
  bandwidth : ℚ
deriving DecidableEq, Repr

/-- A layout zone holding structures. -/
structure Zone where
  id : String
  structures : List Structure
deriving DecidableEq, Repr

/-- The static blueprint layout consumed by the planner. -/
structure Blueprint where
  zones : List Zone
  connections : List Connection
deriving DecidableEq, Repr

/-- Zone lookup by id (the indexed zones map). -/
def getZone (bp : Blueprint) (zid : String) : Option Zone :=
  bp.zones.find? fun z => z.id == zid

/-- The structures of a zone, empty when the zone is absent. -/
def zoneStructures (bp : Blueprint) (zid : String) : List Structure :=
  match getZone bp zid with
  | none => []
  | some z => z.structures

/-- Step 1: the first dock of the intake zone. -/
def intakeDock (bp : Blueprint) : Option Structure :=
  (zoneStructures bp "intake-zone").find? fun s => s.type == "dock"

/-- Step 2: the first conveyor of the intake zone sourced from the dock. -/
def intakeConveyor (bp : Blueprint) (dock : Structure) : Option Structure :=
  (zoneStructures bp "intake-zone").find? fun s =>
    s.type == "conveyor" && s.from_ == dock.id

/-- Step 3: the first refinery of the processing zone accepting the type. -/
def findRefinery (bp : Blueprint) (resourceType : String) : Option Structure :=
  (zoneStructures bp "processing-zone").find? fun s =>
    s.type == "refinery" &&
      (match s.inputTypes with
       | some ts => ts.contains resourceType
       | none => false)

/-- Step 4 mapping: the output type positionally matching the input type
(falling back to the first output type; none models an undefined entry). -/
def refineryOutputType (refinery? : Option Structure) (resourceType : String) :
    Option String :=
  match refinery? with
  | none => some resourceType
  | some refinery =>
    match (refinery.inputTypes.getD []).findIdx? (fun x => x == resourceType) with
    | some i =>
      if i < refinery.outputTypes.length then refinery.outputTypes.get? i
      else refinery.outputTypes.get? 0
    | none => refinery.outputTypes.get? 0

/-- Step 4: the first silo or vault of the storage zone storing the type. -/
def findSilo (bp : Blueprint) (outputType : Option String) : Option Structure :=
  (zoneStructures bp "storage-zone").find? fun s =>
    (s.type == "silo" || s.type == "vault") && s.storedType == outputType

/-- Step 5: the first dock of the distribution zone. -/
def distributionDock (bp : Blueprint) : Option Structure :=
  (zoneStructures bp "distribution-zone").find? fun s => s.type == "dock"

/-- The planRoute query: the five-stage traversal; throughput starts at the
top element (Infinity) and is clamped at the intake dock, the conveyor, the
distribution dock, and finally by every connection bandwidth. -/
def planRoute (bp : Blueprint) (resourceType : String) : List String × WithTop ℚ :=
  match intakeDock bp with
  | none => ([], ((0 : ℚ) : WithTop ℚ))
  | some dock =>
    let route1 := [dock.id]
    let t1 : WithTop ℚ := min ⊤ (dock.throughput : WithTop ℚ)
    let conveyor? := intakeConveyor bp dock
    let route2 := route1 ++ (match conveyor? with | some c => [c.id] | none => [])
    let t2 := match conveyor? with
      | some c => min t1 (c.rate : WithTop ℚ)
      | none => t1
    let refinery? := findRefinery bp resourceType
    let route3 := route2 ++ (match refinery? with | some r => [r.id] | none => [])
    let silo? := findSilo bp (refineryOutputType refinery? resourceType)
    let route4 := route3 ++ (match silo? with | some s2 => [s2.id] | none => [])
    let outDock? := distributionDock bp
    let route5 := route4 ++ (match outDock? with | some d2 => [d2.id] | none => [])
    let t5 := match outDock? with
      | some d2 => min t2 (d2.throughput : WithTop ℚ)
      | none => t2
    let t6 := bp.connections.foldl
      (fun acc cn => min acc (cn.bandwidth : WithTop ℚ)) t5
    (route5, t6)

/-- The totalStorageCapacity query: sum of declared maxUnits over the
storage zone. -/
def totalStorageCapacity (bp : Blueprint) : ℚ :=
  ((zoneStructures bp "storage-zone").map fun s => s.maxUnits.getD 0).sum

/-- Minimum over a list of clamps, starting at the top element. -/
def minClamp (l : List ℚ) : WithTop ℚ :=
  l.foldr (fun q acc => min (q : WithTop ℚ) acc) ⊤

/-- The clamps exactly as claim C5 words them: the conveyor rate when such a
conveyor exists, the distribution dock throughput when such a dock exists,
and every connection bandwidth — with no clamp for the intake dock itself. -/
def claimClamps (bp : Blueprint) : List ℚ :=
  (match intakeDock bp with
   | some dock =>
     match intakeConveyor bp dock with
     | some c => [c.rate]
     | none => []
   | none => []) ++
  (match distributionDock bp with
   | some d2 => [d2.throughput]
   | none => []) ++
  bp.connections.map fun cn => cn.bandwidth

/-- The throughput the claim asserts: the minimum over the claim clamps. -/
def claimThroughput (bp : Blueprint) : WithTop ℚ := minClamp (claimClamps bp)

/-- The amended clamps: the claim clamps plus the intake dock throughput. -/
def amendedClamps (bp : Blueprint) : List ℚ :=
  (match intakeDock bp with
   | some dock => [dock.throughput]
   | none => []) ++ claimClamps bp

/-- The amended asserted throughput. -/
def amendedThroughput (bp : Blueprint) : WithTop ℚ := minClamp (amendedClamps bp)

theorem min_top_withTop (a : WithTop ℚ) : min a ⊤ = a := min_eq_left le_top

theorem top_min_withTop (a : WithTop ℚ) : min ⊤ a = a := min_eq_right le_top

theorem minClamp_cons (q : ℚ) (l : List ℚ) :
    minClamp (q :: l) = min (q : WithTop ℚ) (minClamp l) := rfl

theorem foldl_min_connections (cs : List Connection) (a : WithTop ℚ) :
    cs.foldl (fun acc cn => min acc (cn.bandwidth : WithTop ℚ)) a =
      min a (minClamp (cs.map fun cn => cn.bandwidth)) := by
  induction cs generalizing a with
  | nil =>
    rw [List.foldl_nil, List.map_nil]
    rw [show minClamp [] = (⊤ : WithTop ℚ) from rfl, min_top_withTop]
  | cons cn rest ih =>
    rw [List.foldl_cons, List.map_cons, minClamp_cons, ih, ← min_assoc]

/-- C5 amended: when the intake zone has a dock, the planned throughput is
the minimum of the intake dock throughput, the conveyor rate (when a
conveyor from that dock exists), the distribution dock throughput (when such
a dock exists), and every connection bandwidth, starting from the top
element and only ever lowered. -/
theorem planRoute_throughput (bp : Blueprint) (rt : String) (dock : Structure)
    (hd : intakeDock bp = some dock) :
    (planRoute bp rt).2 = amendedThroughput bp := by
  unfold planRoute
  rw [hd]
  dsimp only
  unfold amendedThroughput amendedClamps claimClamps
  rw [hd, foldl_min_connections]
  cases hc : intakeConveyor bp dock <;> cases ho : distributionDock bp <;>
    simp only [hc, ho] <;>
    simp only [List.cons_append, List.nil_append, List.append_nil, minClamp_cons,
      top_min_withTop, min_assoc]

/-- A minimal structure entry carrying only id, type, throughput, rate and
source fields. -/
def mkStructure (id ty : String) (thr rate : ℚ) (frm : String) : Structure :=
  ⟨id, ty, thr, rate, frm, none, [], none, none⟩

/-- A blueprint whose intake dock (throughput 5) is tighter than the conveyor
rate (10), the distribution dock throughput (10) and the single connection
bandwidth (10). -/
def cexBlueprint : Blueprint :=
  ⟨[⟨"intake-zone", [mkStructure "dock-in" "dock" 5 0 "",
      mkStructure "conv-1" "conveyor" 0 10 "dock-in"]⟩,
    ⟨"distribution-zone", [mkStructure "dock-out" "dock" 10 0 ""]⟩],
   [⟨"intake-zone", "distribution-zone", 10⟩]⟩

/-- Counterexample for C5: the code clamps the throughput by the intake dock
throughput as well, so planRoute returns 5 where the claim asserts the
minimum of the other clamps, 10. -/
theorem planRoute_intake_clamp_counterexample :
    (planRoute cexBlueprint "ore").2 = ((5 : ℚ) : WithTop ℚ) ∧
    claimThroughput cexBlueprint = ((10 : ℚ) : WithTop ℚ) ∧
    (planRoute cexBlueprint "ore").2 ≠ claimThroughput cexBlueprint := by
  have hd : intakeDock cexBlueprint = some (mkStructure "dock-in" "dock" 5 0 "") := rfl
  have h1 : (planRoute cexBlueprint "ore").2 = amendedThroughput cexBlueprint :=
    planRoute_throughput cexBlueprint "ore" _ hd
  have h5 : amendedThroughput cexBlueprint = ((5 : ℚ) : WithTop ℚ) := by
    unfold amendedThroughput
    rw [show amendedClamps cexBlueprint = [5, 10, 10, 10] from rfl]
    simp only [minClamp_cons, show minClamp [] = (⊤ : WithTop ℚ) from rfl,
      min_top_withTop, ← WithTop.coe_min]
    rw [WithTop.coe_eq_coe]
    norm_num [min_def]
  have h10 : claimThroughput cexBlueprint = ((10 : ℚ) : WithTop ℚ) := by
    unfold claimThroughput
    rw [show claimClamps cexBlueprint = [10, 10, 10] from rfl]
    simp only [minClamp_cons, show minClamp [] = (⊤ : WithTop ℚ) from rfl,
      min_top_withTop, ← WithTop.coe_min]
    rw [WithTop.coe_eq_coe]
    norm_num [min_def]
  refine ⟨h1.trans h5, h10, ?_⟩
  rw [h1.trans h5, h10]
  intro h
  rw [WithTop.coe_eq_coe] at h
  norm_num at h

/-- Witness for the amended C5 at the concrete blueprint. -/
theorem planRoute_throughput_witness :
    intakeDock cexBlueprint = some (mkStructure "dock-in" "dock" 5 0 "") ∧
    (planRoute cexBlueprint "ore").2 = amendedThroughput cexBlueprint :=
  ⟨rfl, planRoute_throughput cexBlueprint "ore" _ rfl⟩

end Planner


-- ===========================================================================
-- Failure atomicity across the controllers and the tick engine
-- ===========================================================================

/-- C10: every failing controller operation leaves the observable state
exactly as it was before the call (each embedded operation returns the state
as of the throw, and in the source every throw happens before any mutation),
and a failing tick delivers no partial output (the engine holds no state). -/
theorem failure_atomicity :
    (∀ (m : Structures.Ctrl) (id : String) (tier : Int) (e : CtrlError),
      (Structures.register m id tier).1 = .error e →
      (Structures.register m id tier).2 = m) ∧
    (∀ (m : Structures.Ctrl) (id : String) (t : Int) (e : CtrlError),
      (Structures.startBuild m id t).1 = .error e →
      (Structures.startBuild m id t).2 = m) ∧
    (∀ (m : Structures.Ctrl) (id : String) (t : Int) (e : CtrlError),
      (Structures.startUpgrade m id t).1 = .error e →
      (Structures.startUpgrade m id t).2 = m) ∧
    (∀ (m : Structures.Ctrl) (id : String) (e : CtrlError),
      (Structures.decommission m id).1 = .error e →
      (Structures.decommission m id).2 = m) ∧
    (∀ (c : Swarm.SwarmCtrl) (e : CtrlError),
      (Swarm.spawnDrone c).1 = .error e → (Swarm.spawnDrone c).2 = c) ∧
    (∀ (c : Swarm.SwarmCtrl) (dId rId : String) (e : CtrlError),
      (Swarm.dispatch c dId rId).1 = .error e → (Swarm.dispatch c dId rId).2 = c) ∧
    (∀ (c : Swarm.SwarmCtrl) (dId : String) (a : ℚ) (e : CtrlError),
      (Swarm.collect c dId a).1 = .error e → (Swarm.collect c dId a).2 = c) ∧
    (∀ (c : Swarm.SwarmCtrl) (dId : String) (e : CtrlError),
      (Swarm.returnToHub c dId).1 = .error e → (Swarm.returnToHub c dId).2 = c) ∧
    (∀ (ps : List SectorSim.Primitive) (ss : Unit) (seed : Int),
      SectorSim.allCapsKnown ps = false → SectorSim.tick ps ss seed = none) := by
  refine ⟨?_, ?_, ?_, ?_, ?_, ?_, ?_, ?_, ?_⟩
  · intro m id tier e h
    unfold Structures.register at h ⊢
    by_cases hc : (Structures.lookupFacility m id).isSome = true
    · rw [if_pos hc]
    · rw [if_neg hc] at h
      simp at h
  · intro m id t e h
    unfold Structures.startBuild at h ⊢
    cases hl : Structures.lookupFacility m id with
    | none => rfl
    | some s =>
      rw [hl] at h
      dsimp only at h ⊢
      by_cases hs : s.state ≠ Structures.StructureState.planned
      · rw [if_pos hs]
      · rw [if_neg hs] at h
        simp at h
  · intro m id t e h
    unfold Structures.startUpgrade at h ⊢
    cases hl : Structures.lookupFacility m id with
    | none => rfl
    | some s =>
      rw [hl] at h
      dsimp only at h ⊢
      by_cases hs : s.state ≠ Structures.StructureState.operational
      · rw [if_pos hs]
      · rw [if_neg hs] at h
        simp at h
  · intro m id e h
    unfold Structures.decommission at h ⊢
    cases hl : Structures.lookupFacility m id with
    | none => rfl
    | some s =>
      rw [hl] at h
      simp at h
  · intro c e h
    unfold Swarm.spawnDrone at h ⊢
    by_cases hc : c.drones.length ≥ c.config.maxDrones
    · rw [if_pos hc]
    · rw [if_neg hc] at h
      simp at h
  · intro c dId rId e h
    unfold Swarm.dispatch at h ⊢
    cases hl : Swarm.getDrone c dId with
    | none => rfl
    | some drone =>
      rw [hl] at h
      dsimp only at h ⊢
      cases hr : c.config.patrolRoutes.find? fun r => r.id == rId with
      | none => rfl
      | some route =>
        rw [hr] at h
        dsimp only at h ⊢
        by_cases hs : drone.state ≠ Swarm.DroneState.idle
        · rw [if_pos hs]
        · rw [if_neg hs] at h
          simp at h
  · intro c dId a e h
    unfold Swarm.collect at h ⊢
    cases hl : Swarm.getDrone c dId with
    | none => rfl
    | some drone =>
      rw [hl] at h
      dsimp only at h ⊢
      by_cases hs : drone.state ≠ Swarm.DroneState.collecting
      · rw [if_pos hs]
      · rw [if_neg hs] at h
        simp at h
  · intro c dId e h
    unfold Swarm.returnToHub at h ⊢
    cases hl : Swarm.getDrone c dId with
    | none => rfl
    | some drone =>
      rw [hl] at h
      dsimp only at h ⊢
      by_cases hs : drone.state ≠ Swarm.DroneState.returning ∧
          drone.state ≠ Swarm.DroneState.collecting
      · rw [if_pos hs]
      · rw [if_neg hs] at h
        simp at h
  · intro ps ss seed h
    rw [SectorSim.tick_characterization, h]
    rfl

/-- Witness for C10: register on a duplicate id fails and leaves the table
unchanged. -/
theorem failure_atomicity_witness :
    (Structures.register [("a", (⟨.planned, 1, 0⟩ : Structures.Facility))] "a" 1).1 =
      .error .duplicateEntity ∧
    (Structures.register [("a", (⟨.planned, 1, 0⟩ : Structures.Facility))] "a" 1).2 =
      [("a", (⟨.planned, 1, 0⟩ : Structures.Facility))] :=
  ⟨rfl, failure_atomicity.1 _ "a" 1 .duplicateEntity rfl⟩
